import Mathlib

/-!
Verification development for the FModel-JSON → Blueprint stub generator
(`DummyBlueprintFunctionLibrary.cpp`).

The development embeds the string-level logic of the plugin:

* `parseRT` / `decodePin`   — the pin-type decoder in `AddFunctionStubToBlueprint`
  (splitting of the pipe-delimited return-type encoding and the big
  kind-dispatch that builds an `FEdGraphPinType`);
* `effectiveHasReturn`      — the naming-convention heuristic and the `VOID` override;
* `addFunctionStubToBlueprint` / `addMultipleFunctionStubsToBlueprint`
  — graph creation and the duplicate filter;
* `parseFModelJSON`         — the dump-walking extraction pass, including the
  return-type correlation over `Function` records.

Unreal string semantics that the embedding models explicitly:
`FString::operator==`, `Contains`, `StartsWith`, `EndsWith`, `RemoveFromStart`
default to case-insensitive comparison, `FName` comparison is case-insensitive,
`FString::ParseIntoArray` culls empty fields by default, and
`TArray::AddUnique` appends only when no equal element exists.
External asset lookups (`FindObject`/`LoadObject`) are modelled by a lookup
oracle `Env`; both functions are queries of the same store, so both map to the
same oracle field.
-/

/-! ## Case-insensitive string primitives (FString / FName semantics) -/

def lowerData (s : String) : List Char := s.data.map Char.toLower

/-- `FString::operator==` / `FName` equality: case-insensitive. -/
def strEqCI (a b : String) : Bool := lowerData a == lowerData b

/-- `FString::StartsWith` (default `ESearchCase::IgnoreCase`). -/
def startsWithCI (s pat : String) : Bool := (lowerData pat).isPrefixOf (lowerData s)

/-- `FString::EndsWith` (default `ESearchCase::IgnoreCase`). -/
def endsWithCI (s pat : String) : Bool := (lowerData pat).isSuffixOf (lowerData s)

/-- Substring occurrence in a character list. -/
def hasSubstr (pat : List Char) : List Char → Bool
  | [] => pat.isPrefixOf []
  | c :: t => pat.isPrefixOf (c :: t) || hasSubstr pat t

/-- `FString::Contains` (default `ESearchCase::IgnoreCase`). -/
def containsCI (s pat : String) : Bool := hasSubstr (lowerData pat) (lowerData s)

/-- Drop the first `n` characters (`FString::Mid(n)`). -/
def strDrop (s : String) (n : Nat) : String := String.mk (s.data.drop n)

/-- Drop the last `n` characters (`FString::LeftChop(n)`). -/
def strDropRight (s : String) (n : Nat) : String :=
  String.mk (s.data.take (s.data.length - n))

/-- `FString::RemoveFromStart` (case-insensitive prefix match). -/
def removeFromStart (s pat : String) : String :=
  if startsWithCI s pat then strDrop s pat.data.length else s

/-- `FString::RemoveFromEnd` (case-insensitive suffix match). -/
def removeFromEnd (s pat : String) : String :=
  if endsWithCI s pat then strDropRight s pat.data.length else s

/-- `FString::Replace(TEXT(" "), TEXT("_"))` — single-character replacement. -/
def replaceSpaces (s : String) : String :=
  String.mk (s.data.map (fun c => if c = ' ' then '_' else c))

/-- The apostrophe character (avoids a quote literal in the source text). -/
def quoteC : Char := Char.ofNat 39

def qStr : String := String.mk [quoteC]

/-- The literal `Class'` tag that precedes native class names in the dump. -/
def classTag : String := "Class" ++ qStr

/-- The literal `Function'` tag of function-reference object names. -/
def funcTag : String := "Function" ++ qStr

/-- First occurrence of a character: the parts strictly before and after it
(`FString::FindChar` + `Left`/`Mid`). -/
def splitFirstCh (ch : Char) : List Char → Option (List Char × List Char)
  | [] => none
  | c :: t =>
    if c = ch then some ([], t)
    else
      match splitFirstCh ch t with
      | some (a, b) => some (c :: a, b)
      | none => none

/-- Split at every occurrence of `ch`, keeping empty fields. -/
def splitChAll (ch : Char) : List Char → List (List Char)
  | [] => [[]]
  | c :: t =>
    let r := splitChAll ch t
    if c = ch then [] :: r
    else
      match r with
      | h :: rest => (c :: h) :: rest
      | [] => [[c]]

/-- The raw pipe-separated fields of an encoding. -/
def splitPipeRaw (s : String) : List String := (splitChAll '|' s.data).map String.mk

/-- `FString::ParseIntoArray(..., TEXT("|"))` — the default `InCullEmpty = true`
discards empty fields. -/
def cullSplitPipe (s : String) : List String := (splitPipeRaw s).filter (fun x => x != "")

/-- Index of the first occurrence of a character. -/
def idxOfCh (ch : Char) : List Char → Option Nat
  | [] => none
  | c :: t => if c = ch then some 0 else (idxOfCh ch t).map (· + 1)

/-- Index of the last occurrence of a character. -/
def lastIdxOfCh (ch : Char) (l : List Char) : Option Nat :=
  (idxOfCh ch l.reverse).map (fun i => l.length - 1 - i)

/-- The quote-stripping idiom used throughout `ParseFModelJSON`: when the string
contains a quote, keep the substring between the first and the last quote
(`Find` from start / from end, then `Mid`), guarded by `StartIdx > 0 && EndIdx > StartIdx`. -/
def stripQuoted (s : String) : String :=
  match idxOfCh quoteC s.data, lastIdxOfCh quoteC s.data with
  | some i, some j =>
    let start := i + 1
    if 0 < start ∧ start < j then String.mk ((s.data.drop start).take (j - start)) else s
  | _, _ => s

/-- `TArray::AddUnique` over case-insensitively compared strings
(`TArray<FName>` and `TArray<FString>` both compare case-insensitively). -/
def addUniqueCI (l : List String) (x : String) : List String :=
  if l.any (fun y => strEqCI y x) then l else l ++ [x]

/-- `FString::EndsWith(".0")` strip used before building asset object paths. -/
def stripDotZero (s : String) : String :=
  if endsWithCI s ".0" then strDropRight s 2 else s

/-! ## JSON values (`FJsonValue` / `FJsonObject`) -/

inductive Json where
  | str : String → Json
  | num : Int → Json
  | jbool : Bool → Json
  | null : Json
  | obj : List (String × Json) → Json
  | arr : List Json → Json

/-- `FJsonValue::TryGetObject`. -/
def Json.asObj? : Json → Option (List (String × Json))
  | .obj f => some f
  | _ => none

/-- Field lookup in an `FJsonObject` (`TMap<FString, …>` keys compare
case-insensitively). -/
def getField (fields : List (String × Json)) (k : String) : Option Json :=
  (fields.find? (fun p => strEqCI p.1 k)).map (·.2)

/-- `FJsonObject::TryGetStringField`: succeeds only on a string-typed field. -/
def getStrField (fields : List (String × Json)) (k : String) : Option String :=
  match getField fields k with
  | some (Json.str s) => some s
  | _ => none

/-- `FJsonObject::TryGetObjectField`. -/
def getObjField (fields : List (String × Json)) (k : String) : Option (List (String × Json)) :=
  match getField fields k with
  | some (Json.obj f) => some f
  | _ => none

/-- `FJsonObject::TryGetArrayField`. -/
def getArrField (fields : List (String × Json)) (k : String) : Option (List Json) :=
  match getField fields k with
  | some (Json.arr l) => some l
  | _ => none

/-! ## Pin types and the external asset store -/

/-- Pin category constants (`UEdGraphSchema_K2::PC_*`). The embedding only
needs them to be distinct tokens. -/
def PC_Bool : String := "PC_Boolean"
def PC_Int : String := "PC_Int"
def PC_Int64 : String := "PC_Int64"
def PC_Real : String := "PC_Real"
def PC_Float : String := "PC_Float"
def PC_Double : String := "PC_Double"
def PC_Byte : String := "PC_Byte"
def PC_String : String := "PC_String"
def PC_Name : String := "PC_Name"
def PC_Text : String := "PC_Text"
def PC_Struct : String := "PC_Struct"
def PC_Object : String := "PC_Object"
def PC_Class : String := "PC_Class"
def PC_SoftObject : String := "PC_SoftObject"
def PC_Interface : String := "PC_Interface"
def PC_Delegate : String := "PC_Delegate"
def PC_MCDelegate : String := "PC_MCDelegate"
def PC_Wildcard : String := "PC_Wildcard"

/-- `FEdGraphPinType::ContainerType`. -/
inductive EPinContainer where
  | cNone
  | cArray
  | cMap
deriving DecidableEq, Repr

/-- What `PinSubCategoryObject` can hold: a definition found at a concrete
object path, or one of the generic fallback classes
(`UObject::StaticClass()` / `UClass::StaticClass()`). -/
inductive ObjRef where
  | cls : String → ObjRef
  | scriptStruct : String → ObjRef
  | enumDef : String → ObjRef
  | genericObject
  | genericClass
deriving DecidableEq, Repr

/-- `FEdGraphPinType` — the fields the decoder assigns. -/
structure PinType where
  category : String := ""
  subCategory : String := ""
  subCategoryObject : Option ObjRef := none
  containerType : EPinContainer := .cNone
  isWeakPointer : Bool := false
  terminalCategory : String := ""
  terminalSubCategory : String := ""
  terminalSubCategoryObject : Option ObjRef := none
deriving DecidableEq, Repr

def wildcardPin : PinType := { category := PC_Wildcard }

/-- The external asset store, as a pure lookup oracle.
`FindObject` and `LoadObject` are both queries of this store (the load/find
distinction has no observable effect on the produced pin type). -/
structure Env where
  classAt : String → Bool
  structAt : String → Bool
  enumAt : String → Bool

/-- An asset store in which no lookup succeeds. -/
def envNone : Env := ⟨fun _ => false, fun _ => false, fun _ => false⟩

/-! ## The return-type string splitter (`AddFunctionStubToBlueprint`, lines 140–192) -/

/-- The four role slots filled by the splitter at the top of the pin builder:
primary kind, class name, class path, and (for arrays) the inner kind. -/
structure ParsedRT where
  propType : String := ""
  className : String := ""
  classPath : String := ""
  innerType : String := ""
deriving DecidableEq, Repr

def parseRT (rt : String) : ParsedRT :=
  match splitFirstCh '|' rt.data with
  | none => { propType := rt }
  | some (l, r) =>
    let pt := String.mk l
    if strEqCI pt "ArrayProperty" then
      match splitFirstCh '|' r with
      | none => { propType := pt, innerType := String.mk r }
      | some (i, rest) =>
        match splitFirstCh '|' rest with
        | none => { propType := pt, className := String.mk rest, innerType := String.mk i }
        | some (cn, cp) =>
          { propType := pt, className := String.mk cn, classPath := String.mk cp,
            innerType := String.mk i }
    else
      match splitFirstCh '|' r with
      | none => { propType := pt, className := String.mk r }
      | some (cn, cp) => { propType := pt, className := String.mk cn, classPath := String.mk cp }

/-- The role assignment performed by the whole decode step: the four splitter
slots plus, for `MapProperty` encodings with at least 3 culled fields, the
key/value kind and key/value class slots read from the culled field array
(lines 758–767). -/
structure DecodedRoles where
  propType : String := ""
  className : String := ""
  classPath : String := ""
  innerType : String := ""
  mapKeyType : String := ""
  mapValueType : String := ""
  mapKeyClass : String := ""
  mapValueClass : String := ""
deriving DecidableEq, Repr

def decodeRoles (rt : String) : DecodedRoles :=
  let p := parseRT rt
  let base : DecodedRoles :=
    { propType := p.propType, className := p.className, classPath := p.classPath,
      innerType := p.innerType }
  if strEqCI p.propType "MapProperty" then
    let parts := cullSplitPipe rt
    if 3 ≤ parts.length then
      { base with
        mapKeyType := parts.getD 1 "",
        mapValueType := parts.getD 2 "",
        mapKeyClass := if 3 < parts.length then parts.getD 3 "" else "",
        mapValueClass := if 4 < parts.length then parts.getD 4 "" else "" }
    else base
  else base

/-! ## Candidate-path searches of the pin builder -/

def contentStructPaths (cn : String) : List String :=
  ["/Game/Pal/DataTable/Struct/" ++ cn ++ "." ++ cn,
   "/Game/Pal/Blueprint/Struct/" ++ cn ++ "." ++ cn,
   "/Game/Pal/Struct/" ++ cn ++ "." ++ cn,
   "/Game/Struct/" ++ cn ++ "." ++ cn]

def nativeStructPaths (cn : String) : List String :=
  ["/Script/CoreUObject." ++ cn, "/Script/Engine." ++ cn, "/Script/Pal." ++ cn]

/-- Struct search for a top-level `StructProperty` return (lines 249–338):
object path first, then user-defined content roots, then native roots. -/
def structSearch (env : Env) (cn cp : String) : Option String :=
  let s1 : Option String :=
    if cp != "" then
      let full := stripDotZero cp ++ "." ++ cn
      if env.structAt full then some full else none
    else none
  match s1 with
  | some p => some p
  | none =>
    let s2 : Option String :=
      if startsWithCI cn "F_" || containsCI cn "UserDefined" then
        (contentStructPaths cn).find? env.structAt
      else none
    match s2 with
    | some p => some p
    | none => (nativeStructPaths cn).find? env.structAt

/-- Class search for a top-level `ObjectProperty`/`ClassProperty` return
(lines 379–428): object path first, then four native roots. -/
def objectSearch (env : Env) (cn cp : String) : Option String :=
  let s1 : Option String :=
    if cp != "" then
      let full := stripDotZero cp ++ "." ++ cn
      if env.classAt full then some full else none
    else none
  match s1 with
  | some p => some p
  | none =>
    ["/Script/Pal." ++ cn, "/Script/Engine." ++ cn, "/Script/Niagara." ++ cn,
     "/Script/CoreUObject." ++ cn].find? env.classAt

/-- Class search for array inner `ObjectProperty`/`ClassProperty`
(lines 503–537 and 671–705): object path, then three native roots. -/
def arrayClassSearch (env : Env) (cn cp : String) : Option String :=
  let s1 : Option String :=
    if cp != "" then
      let full := stripDotZero cp ++ "." ++ cn
      if env.classAt full then some full else none
    else none
  match s1 with
  | some p => some p
  | none =>
    ["/Script/Pal." ++ cn, "/Script/Engine." ++ cn, "/Script/CoreUObject." ++ cn].find? env.classAt

/-- Struct search for array inner / map key / map value `StructProperty`
(lines 560–608, 868–903, 1027–1062): content roots when user-defined, then
native roots; the encoded object path is not consulted. -/
def containerStructSearch (env : Env) (cn : String) : Option String :=
  let s1 : Option String :=
    if startsWithCI cn "F_" || containsCI cn "UserDefined" then
      (contentStructPaths cn).find? env.structAt
    else none
  match s1 with
  | some p => some p
  | none => (nativeStructPaths cn).find? env.structAt

/-- Class search for map key/value `ObjectProperty`/`ClassProperty`
(lines 820–824 etc.): only `/Script/Pal` and `/Script/Engine`. -/
def mapClassSearch (env : Env) (cn : String) : Option String :=
  ["/Script/Pal." ++ cn, "/Script/Engine." ++ cn].find? env.classAt

/-- Enum search for map key `EnumProperty` (lines 962–966). -/
def mapEnumSearch (env : Env) (cn : String) : Option String :=
  ["/Script/Pal." ++ cn, "/Script/Engine." ++ cn].find? env.enumAt

/-! ## The pin-type decoder (`AddFunctionStubToBlueprint`, lines 194–1089) -/

/-- The array branch of the decoder (lines 488–752): the container is set to
`Array` and the category is dispatched on the inner kind. -/
def arrayPin (env : Env) (it cn cp : String) : PinType :=
  if strEqCI it "ObjectProperty" then
    { category := PC_Object, containerType := .cArray,
      subCategoryObject :=
        if cn != "" then
          match arrayClassSearch env cn cp with
          | some p => some (ObjRef.cls p)
          | none => some ObjRef.genericObject
        else some ObjRef.genericObject }
  else if strEqCI it "StructProperty" then
    { category := PC_Struct, containerType := .cArray,
      subCategoryObject :=
        if cn != "" then (containerStructSearch env cn).map ObjRef.scriptStruct
        else none }
  else if strEqCI it "IntProperty" then { category := PC_Int, containerType := .cArray }
  else if strEqCI it "Int64Property" then { category := PC_Int64, containerType := .cArray }
  else if strEqCI it "ByteProperty" then { category := PC_Byte, containerType := .cArray }
  else if strEqCI it "BoolProperty" then { category := PC_Bool, containerType := .cArray }
  else if strEqCI it "FloatProperty" then
    { category := PC_Real, subCategory := PC_Float, containerType := .cArray }
  else if strEqCI it "DoubleProperty" then
    { category := PC_Real, subCategory := PC_Double, containerType := .cArray }
  else if strEqCI it "StrProperty" then { category := PC_String, containerType := .cArray }
  else if strEqCI it "NameProperty" then { category := PC_Name, containerType := .cArray }
  else if strEqCI it "TextProperty" then { category := PC_Text, containerType := .cArray }
  else if strEqCI it "EnumProperty" then { category := PC_Byte, containerType := .cArray }
  else if strEqCI it "ClassProperty" then
    { category := PC_Class, containerType := .cArray,
      subCategoryObject :=
        if cn != "" then
          match arrayClassSearch env cn cp with
          | some p => some (ObjRef.cls p)
          | none => some ObjRef.genericClass
        else some ObjRef.genericClass }
  else if strEqCI it "SoftObjectProperty" || strEqCI it "SoftClassProperty" then
    { category := PC_SoftObject, containerType := .cArray }
  else if strEqCI it "WeakObjectProperty" then
    { category := PC_Object, isWeakPointer := true, containerType := .cArray }
  else if strEqCI it "InterfaceProperty" then { category := PC_Interface, containerType := .cArray }
  else if strEqCI it "DelegateProperty" then { category := PC_Delegate, containerType := .cArray }
  else if strEqCI it "MulticastDelegateProperty" || strEqCI it "MulticastInlineDelegateProperty" then
    { category := PC_MCDelegate, containerType := .cArray }
  else { category := PC_Wildcard, containerType := .cArray }

/-- The value side of the map branch (lines 771–915): category, sub-category
and sub-category object of the pin. -/
def mapValueSide (env : Env) (vt vc : String) : String × String × Option ObjRef :=
  if strEqCI vt "BoolProperty" then (PC_Bool, "", none)
  else if strEqCI vt "IntProperty" then (PC_Int, "", none)
  else if strEqCI vt "Int64Property" then (PC_Int64, "", none)
  else if strEqCI vt "ByteProperty" then (PC_Byte, "", none)
  else if strEqCI vt "FloatProperty" then (PC_Real, PC_Float, none)
  else if strEqCI vt "DoubleProperty" then (PC_Real, PC_Double, none)
  else if strEqCI vt "StrProperty" then (PC_String, "", none)
  else if strEqCI vt "NameProperty" then (PC_Name, "", none)
  else if strEqCI vt "TextProperty" then (PC_Text, "", none)
  else if strEqCI vt "EnumProperty" then (PC_Byte, "", none)
  else if strEqCI vt "ObjectProperty" then
    (PC_Object, "",
      if vc != "" then
        match mapClassSearch env vc with
        | some p => some (ObjRef.cls p)
        | none => some ObjRef.genericObject
      else some ObjRef.genericObject)
  else if strEqCI vt "ClassProperty" then
    (PC_Class, "",
      if vc != "" then
        match mapClassSearch env vc with
        | some p => some (ObjRef.cls p)
        | none => some ObjRef.genericClass
      else some ObjRef.genericClass)
  else if strEqCI vt "StructProperty" then
    (PC_Struct, "",
      if vc != "" then (containerStructSearch env vc).map ObjRef.scriptStruct else none)
  else (PC_Wildcard, "", none)

/-- The key side of the map branch (lines 917–1074): the pin's terminal
(key) category, sub-category and sub-category object. -/
def mapKeySide (env : Env) (kt kc : String) : String × String × Option ObjRef :=
  if strEqCI kt "BoolProperty" then (PC_Bool, "", none)
  else if strEqCI kt "IntProperty" then (PC_Int, "", none)
  else if strEqCI kt "Int64Property" then (PC_Int64, "", none)
  else if strEqCI kt "ByteProperty" then (PC_Byte, "", none)
  else if strEqCI kt "FloatProperty" then (PC_Real, PC_Float, none)
  else if strEqCI kt "DoubleProperty" then (PC_Real, PC_Double, none)
  else if strEqCI kt "StrProperty" then (PC_String, "", none)
  else if strEqCI kt "NameProperty" then (PC_Name, "", none)
  else if strEqCI kt "TextProperty" then (PC_Text, "", none)
  else if strEqCI kt "EnumProperty" then
    (PC_Byte, "",
      if kc != "" then (mapEnumSearch env kc).map ObjRef.enumDef else none)
  else if strEqCI kt "ObjectProperty" then
    (PC_Object, "",
      if kc != "" then
        match mapClassSearch env kc with
        | some p => some (ObjRef.cls p)
        | none => some ObjRef.genericObject
      else some ObjRef.genericObject)
  else if strEqCI kt "ClassProperty" then
    (PC_Class, "",
      if kc != "" then
        match mapClassSearch env kc with
        | some p => some (ObjRef.cls p)
        | none => some ObjRef.genericClass
      else some ObjRef.genericClass)
  else if strEqCI kt "StructProperty" then
    (PC_Struct, "",
      if kc != "" then (containerStructSearch env kc).map ObjRef.scriptStruct else none)
  else (PC_Wildcard, "", none)

/-- The map branch (lines 753–1082): the container is set to `Map` before the
field-count check, then the full encoding is re-split with empty fields culled. -/
def mapPin (env : Env) (rt : String) : PinType :=
  let parts := cullSplitPipe rt
  if 3 ≤ parts.length then
    let kt := parts.getD 1 ""
    let vt := parts.getD 2 ""
    let kc := if 3 < parts.length then parts.getD 3 "" else ""
    let vc := if 4 < parts.length then parts.getD 4 "" else ""
    let v := mapValueSide env vt vc
    let k := mapKeySide env kt kc
    { category := v.1, subCategory := v.2.1, subCategoryObject := v.2.2,
      containerType := .cMap,
      terminalCategory := k.1, terminalSubCategory := k.2.1,
      terminalSubCategoryObject := k.2.2 }
  else { category := PC_Wildcard, containerType := .cMap }

/-- The kind dispatch of the pin builder, applied to the splitter output. -/
def decodePinCore (env : Env) (rt : String) (p : ParsedRT) : PinType :=
  let pt := p.propType
  let cn := p.className
  let cp := p.classPath
  if pt = "" then wildcardPin
  else if strEqCI pt "BoolProperty" then { category := PC_Bool }
  else if strEqCI pt "IntProperty" then { category := PC_Int }
  else if strEqCI pt "FloatProperty" then { category := PC_Real, subCategory := PC_Float }
  else if strEqCI pt "DoubleProperty" then { category := PC_Real, subCategory := PC_Double }
  else if strEqCI pt "ByteProperty" then { category := PC_Byte }
  else if strEqCI pt "StrProperty" then { category := PC_String }
  else if strEqCI pt "NameProperty" then { category := PC_Name }
  else if strEqCI pt "TextProperty" then { category := PC_Text }
  else if strEqCI pt "Int64Property" then { category := PC_Int64 }
  else if strEqCI pt "EnumProperty" then { category := PC_Byte }
  else if strEqCI pt "StructProperty" then
    { category := PC_Struct,
      subCategoryObject :=
        if cn != "" then (structSearch env cn cp).map ObjRef.scriptStruct else none }
  else if strEqCI pt "SoftObjectProperty" || strEqCI pt "SoftClassProperty" then
    { category := PC_SoftObject }
  else if strEqCI pt "WeakObjectProperty" then { category := PC_Object, isWeakPointer := true }
  else if strEqCI pt "InterfaceProperty" then { category := PC_Interface }
  else if strEqCI pt "DelegateProperty" then { category := PC_Delegate }
  else if strEqCI pt "MulticastDelegateProperty" || strEqCI pt "MulticastInlineDelegateProperty" then
    { category := PC_MCDelegate }
  else if strEqCI pt "ClassProperty" || strEqCI pt "ObjectProperty" then
    let isCls := strEqCI pt "ClassProperty"
    { category := if isCls then PC_Class else PC_Object,
      subCategoryObject :=
        if cn != "" then
          match objectSearch env cn cp with
          | some p => some (ObjRef.cls p)
          | none => some (if isCls then ObjRef.genericClass else ObjRef.genericObject)
        else none }
  else if strEqCI pt "ArrayProperty" then arrayPin env p.innerType cn cp
  else if strEqCI pt "MapProperty" then mapPin env rt
  else wildcardPin

/-- The full return-pin decoder of `AddFunctionStubToBlueprint`. -/
def decodePin (env : Env) (rt : String) : PinType := decodePinCore env rt (parseRT rt)

/-! ## Return-value heuristic and stub creation -/

/-- The naming-convention table (lines 58–64), including the deliberate
`Gey` historical misspelling; `StartsWith` is case-insensitive. -/
def inferReturnFromName (name : String) : Bool :=
  startsWithCI name "Get" || startsWithCI name "Is" || startsWithCI name "Can" ||
  startsWithCI name "Has" || startsWithCI name "Should" || startsWithCI name "Calc" ||
  startsWithCI name "Gey"

/-- The two mutations of `bHasReturnValue` at the top of
`AddFunctionStubToBlueprint` (lines 56–76): the heuristic fires only when the
flag is unset and the encoding is empty; the explicit `VOID` marker then
clears the flag unconditionally. -/
def effectiveHasReturn (name : String) (bHasReturnValue : Bool) (rt : String) : Bool :=
  let b1 :=
    if bHasReturnValue = false ∧ rt = "" then
      if inferReturnFromName name then true else bHasReturnValue
    else bHasReturnValue
  if strEqCI rt "VOID" then false else b1

/-- One function graph of a Blueprint: its `FName` together with the result
node's pin when one was created. -/
structure FuncGraph where
  name : String
  hasReturn : Bool
  returnPin : Option PinType
deriving DecidableEq, Repr

/-- The state of the target class asset that the stub creator reads and
mutates: its own function graphs and the functions reachable on the parent
class (`ParentClass->FindFunctionByName`; an asset without a parent has an
empty list). -/
structure Blueprint where
  functionGraphs : List FuncGraph
  parentFunctions : List String
deriving DecidableEq, Repr

/-- `FName::IsNone` for a name constructed from a string: empty strings and
the literal `None` (case-insensitive) are `NAME_None`. -/
def fnameIsNone (s : String) : Bool := s == "" || strEqCI s "None"

/-- `AddFunctionStubToBlueprint`: validates the name, fixes the has-return
flag, and appends one function graph (entry node, and a result node with the
decoded pin when a return value exists). Graph creation by the engine is
modelled as succeeding; the function then returns `true`. -/
def addFunctionStubToBlueprint (env : Env) (bp : Blueprint) (name : String)
    (bHasReturnValue : Bool) (rt : String) : Bool × Blueprint :=
  if fnameIsNone name then (false, bp)
  else
    let hasRet := effectiveHasReturn name bHasReturnValue rt
    let g : FuncGraph :=
      { name := name, hasReturn := hasRet,
        returnPin := if hasRet then some (decodePin env rt) else none }
    (true, { bp with functionGraphs := bp.functionGraphs ++ [g] })

/-- The outer per-name skip of the batch loop (line 1136): `NAME_None`
entries and the implicit event graph (`ExecuteUbergraph…`). -/
def junkName (n : String) : Bool := fnameIsNone n || containsCI n "ExecuteUbergraph"

/-- The duplicate check of the batch loop (lines 1141–1164): an own function
graph with the same `FName`, or a function inherited from the parent class. -/
def collidesBp (bp : Blueprint) (n : String) : Bool :=
  bp.functionGraphs.any (fun g => strEqCI g.name n) ||
  bp.parentFunctions.any (fun p => strEqCI p n)

/-- `AddMultipleFunctionStubsToBlueprint`: walks the name list in order;
the return type at each index is the parallel entry of `ReturnTypes` when it
exists, else the empty string, and `bHasReturn` is its non-emptiness. -/
def addMultipleFunctionStubsToBlueprint (env : Env) :
    Blueprint → List String → List String → Nat × Blueprint
  | bp, [], _ => (0, bp)
  | bp, n :: ns, rts =>
    if junkName n then addMultipleFunctionStubsToBlueprint env bp ns rts.tail
    else if collidesBp bp n then addMultipleFunctionStubsToBlueprint env bp ns rts.tail
    else
      let rt := rts.headD ""
      let r := addFunctionStubToBlueprint env bp n (rt != "") rt
      let rest := addMultipleFunctionStubsToBlueprint env r.2 ns rts.tail
      (rest.1 + (if r.1 then 1 else 0), rest.2)

/-- Specification-side duplicate filter (spec §4.4): keeps a name exactly when
it is not a `NAME_None`/event-graph entry and does not match — case-insensitively,
by name only — an own symbol (including the ones created earlier in the same
batch) or an inherited one. -/
def dupFilterSpec (own inherited : List String) : List String → List String
  | [] => []
  | n :: ns =>
    if junkName n || own.any (fun y => strEqCI y n) || inherited.any (fun y => strEqCI y n) then
      dupFilterSpec own inherited ns
    else n :: dupFilterSpec (own ++ [n]) inherited ns

/-! ## The extraction pass (`ParseFModelJSON`) -/

/-- The outputs of `ParseFModelJSON` (its seven out-parameters). -/
structure ParseOut where
  functionNames : List String
  componentNames : List String
  componentClasses : List String
  variableNames : List String
  variableTypes : List String
  functionReturnTypes : List String
  parentClassPath : String
deriving DecidableEq, Repr

/-- Parent resolution (lines 1368–1399): an existing `Super` object wins (its
`ObjectPath`, or nothing at all when that field is absent); otherwise a
`SuperStruct.ObjectName` of the shape `Class'…'` yields the `CPP:`-tagged
native class name. -/
def extractParent (f : List (String × Json)) : String :=
  match getObjField f "Super" with
  | some so => (getStrField so "ObjectPath").getD ""
  | none =>
    match getObjField f "SuperStruct" with
    | some ss =>
      match getStrField ss "ObjectName" with
      | some sn =>
        if startsWithCI sn classTag then
          "CPP:" ++ removeFromEnd (strDrop sn 6) qStr
        else ""
      | none => ""
    | none => ""

/-- Function-name extraction from one `Children` entry (lines 1418–1447):
`Function'Owner:Name'` → `Name`, quote stripped, spaces replaced, empty and
`None` results rejected. -/
def extractFuncName (objName : String) : Option String :=
  if startsWithCI objName funcTag then
    match splitFirstCh ':' objName.data with
    | some (_, after) =>
      let fn := replaceSpaces (removeFromEnd (String.mk after) qStr)
      if fn != "" && !strEqCI fn "None" then some fn else none
    | none => none
  else none

def processChildren (children : List Json) : List String :=
  children.foldl
    (fun acc c =>
      match c.asObj? with
      | some cf =>
        match getStrField cf "ObjectName" with
        | some objName =>
          match extractFuncName objName with
          | some fn => addUniqueCI acc fn
          | none => acc
        | none => acc
      | none => acc)
    []

/-- The scalar property kinds accepted as Blueprint variables, and their
variable-type names (lines 1503–1542). -/
def varTypeOf (pt : String) : String :=
  if strEqCI pt "BoolProperty" then "bool"
  else if strEqCI pt "IntProperty" then "int32"
  else if strEqCI pt "FloatProperty" then "float"
  else if strEqCI pt "DoubleProperty" then "double"
  else if strEqCI pt "ByteProperty" then "uint8"
  else if strEqCI pt "StrProperty" then "FString"
  else if strEqCI pt "NameProperty" then "FName"
  else if strEqCI pt "TextProperty" then "FText"
  else ""

/-- Accumulator for the `ChildProperties` walk of the class record. -/
structure PropsAcc where
  comps : List String
  compClasses : List String
  vars : List String
  varTypes : List String
deriving DecidableEq, Repr

/-- One step of the `ChildProperties` walk (lines 1461–1554): component
properties are object properties whose class name contains `Component`
(names deduplicated via `AddUnique`, classes also via `AddUnique`); scalar
properties become variables unless they carry a generated-name prefix
(names via `AddUnique`, types via plain `Add`). -/
def stepChildProp (acc : PropsAcc) (p : Json) : PropsAcc :=
  match p.asObj? with
  | none => acc
  | some f =>
    let pType := (getStrField f "Type").getD ""
    let pName := (getStrField f "Name").getD ""
    if strEqCI pName "UberGraphFrame" then acc
    else if strEqCI pType "ObjectProperty" then
      match getObjField f "PropertyClass" with
      | some pc =>
        let cn := (getStrField pc "ObjectName").getD ""
        if containsCI cn "Component" && pName != "" then
          { acc with
            comps := addUniqueCI acc.comps pName,
            compClasses := addUniqueCI acc.compClasses (removeFromEnd (removeFromStart cn classTag) qStr) }
        else acc
      | none => acc
    else
      let vt := varTypeOf pType
      if vt != "" && pName != "" && !startsWithCI pName "CallFunc_" &&
         !startsWithCI pName "K2Node_" && !startsWithCI pName "Temp_" then
        { acc with vars := addUniqueCI acc.vars pName, varTypes := acc.varTypes ++ [vt] }
      else acc

/-- Is this entry the class-definition record? -/
def isBPGC (e : Json) : Bool :=
  match e.asObj? with
  | some f => strEqCI ((getStrField f "Type").getD "") "BlueprintGeneratedClass"
  | none => false

/-- The first `BlueprintGeneratedClass` record of the dump (the scan loop
breaks at the first hit; non-object entries are skipped). -/
def findBPGC : List Json → Option (List (String × Json))
  | [] => none
  | e :: rest =>
    match e.asObj? with
    | some f =>
      if strEqCI ((getStrField f "Type").getD "") "BlueprintGeneratedClass" then some f
      else findBPGC rest
    | none => findBPGC rest

/-- Processing of the class-definition record: parent, function names from
`Children`, components and variables from `ChildProperties`. -/
def processBPGC (f : List (String × Json)) : String × List String × PropsAcc :=
  let parent := extractParent f
  let fns :=
    match getArrField f "Children" with
    | some children => processChildren children
    | none => []
  let acc :=
    match getArrField f "ChildProperties" with
    | some props => props.foldl stepChildProp ⟨[], [], [], []⟩
    | none => ⟨[], [], [], []⟩
  (parent, fns, acc)

/-! ### Return-type correlation over `Function` records -/

/-- The qualifying-flags test of the correlation pass (lines 1606–1616),
exactly as the code writes it: the flags must contain `Parm`, and either
`ReturnParm`, or `OutParm` without `ReferenceParm`. -/
def qualifiesFlags (flags : String) : Bool :=
  containsCI flags "Parm" &&
    (containsCI flags "ReturnParm" ||
      (containsCI flags "OutParm" && !containsCI flags "ReferenceParm"))

/-- `ObjectName`/`ObjectPath` of a nested class/struct reference object
(each defaults to the empty string when absent or non-string). -/
def extractNamePath (o : List (String × Json)) : String × String :=
  ((getStrField o "ObjectName").getD "", (getStrField o "ObjectPath").getD "")

/-- Class info of an object/class-typed property: `MetaClass` first, else
`PropertyClass` (lines 1630–1646). -/
def objClassInfo (f : List (String × Json)) : String × String :=
  match getObjField f "MetaClass" with
  | some mc => extractNamePath mc
  | none =>
    match getObjField f "PropertyClass" with
    | some pc => extractNamePath pc
    | none => ("", "")

/-- Key- or value-side kind and class name of a map property (lines
1796–1900); only the key side reads an `Enum` reference. -/
def mapSideInfo (isKey : Bool) (o : Option (List (String × Json))) : String × String :=
  match o with
  | none => ("", "")
  | some kp =>
    let t := (getStrField kp "Type").getD ""
    let c :=
      if strEqCI t "ObjectProperty" || strEqCI t "ClassProperty" then
        match getObjField kp "PropertyClass" with
        | some pc =>
          match getStrField pc "ObjectName" with
          | some s => stripQuoted s
          | none => ""
        | none => ""
      else if strEqCI t "StructProperty" then
        match getObjField kp "Struct" with
        | some so =>
          match getStrField so "ObjectName" with
          | some s => stripQuoted s
          | none => ""
        | none => ""
      else if isKey && strEqCI t "EnumProperty" then
        match getObjField kp "Enum" with
        | some eo =>
          match getStrField eo "ObjectName" with
          | some s => stripQuoted s
          | none => ""
        | none => ""
      else ""
    (t, c)

/-- Builds the return-type encoding for one qualifying property record
(lines 1618–1929). -/
def buildRTI (f : List (String × Json)) : String :=
  let pt := (getStrField f "Type").getD ""
  if strEqCI pt "ClassProperty" || strEqCI pt "ObjectProperty" then
    let info := objClassInfo f
    if info.1 != "" then
      pt ++ "|" ++ stripQuoted info.1 ++ (if info.2 != "" then "|" ++ info.2 else "")
    else pt
  else if strEqCI pt "StructProperty" then
    match getObjField f "Struct" with
    | some so =>
      let sn :=
        match getStrField so "ObjectName" with
        | some s => stripQuoted s
        | none => ""
      let sp := (getStrField so "ObjectPath").getD ""
      pt ++ "|" ++ sn ++ (if sp != "" then "|" ++ sp else "")
    | none => pt
  else if strEqCI pt "ArrayProperty" then
    match getObjField f "Inner" with
    | none => pt
    | some inner =>
      let it := (getStrField inner "Type").getD ""
      if strEqCI it "ObjectProperty" || strEqCI it "ClassProperty" then
        let info :=
          match getObjField inner "PropertyClass" with
          | some pc => extractNamePath pc
          | none => ("", "")
        if info.1 != "" then
          pt ++ "|" ++ it ++ "|" ++ stripQuoted info.1 ++
            (if info.2 != "" then "|" ++ info.2 else "")
        else pt ++ "|" ++ it
      else if strEqCI it "StructProperty" then
        match getObjField inner "Struct" with
        | some so =>
          match getStrField so "ObjectName" with
          | some sn => pt ++ "|" ++ it ++ "|" ++ stripQuoted sn
          | none => pt
        | none => pt
      else pt ++ "|" ++ it
  else if strEqCI pt "MapProperty" then
    let k := mapSideInfo true (getObjField f "KeyProp")
    let v := mapSideInfo false (getObjField f "ValueProp")
    pt ++ "|" ++ k.1 ++ "|" ++ v.1 ++
      (if k.2 != "" then "|" ++ k.2 else "|") ++
      (if v.2 != "" then "|" ++ v.2 else "")
  else pt

/-- The scan over a `Function` record's `ChildProperties` (lines 1598–1936):
the first object entry with qualifying flags determines the return-type
encoding; the loop breaks there. -/
def scanProps : List Json → Option String
  | [] => none
  | p :: rest =>
    match p.asObj? with
    | none => scanProps rest
    | some f =>
      if qualifiesFlags ((getStrField f "PropertyFlags").getD "") then some (buildRTI f)
      else scanProps rest

/-- The return-type encoding recorded for one `Function` record: the scanned
encoding, or the explicit `VOID` marker when no qualifying property exists
(lines 1939–1945). -/
def functionEntryReturnType (f : List (String × Json)) : String :=
  ((getArrField f "ChildProperties").bind scanProps).getD "VOID"

/-- `TMap::Add`: replaces the value when the (case-insensitive) key exists. -/
def mapAddCI (m : List (String × String)) (k v : String) : List (String × String) :=
  if m.any (fun p => strEqCI p.1 k) then
    m.map (fun p => if strEqCI p.1 k then (p.1, v) else p)
  else m ++ [(k, v)]

/-- `TMap::Find`. -/
def mapFindCI (m : List (String × String)) (k : String) : Option String :=
  (m.find? (fun p => strEqCI p.1 k)).map (·.2)

/-- The correlation pass (lines 1567–1947): every array entry that is an
object with `Type == "Function"` and a non-empty `Name` contributes one map
entry keyed by its space-normalised name. -/
def buildReturnTypeMap (entries : List Json) : List (String × String) :=
  entries.foldl
    (fun m e =>
      match e.asObj? with
      | none => m
      | some f =>
        if strEqCI ((getStrField f "Type").getD "") "Function" then
          let fn := (getStrField f "Name").getD ""
          if fn = "" then m
          else mapAddCI m (replaceSpaces fn) (functionEntryReturnType f)
        else m)
    []

/-- Building `OutFunctionReturnTypes` parallel to `OutFunctionNames`
(lines 1951–1977): the looked-up encoding — the found `VOID` marker is
re-added verbatim — or the empty no-information string. -/
def returnTypesFor (names : List String) (m : List (String × String)) : List String :=
  names.map (fun n => (mapFindCI m n).getD "")

/-- The whole parse, given the deserialised top-level JSON value; `none`
models an unreadable file or ill-formed JSON. The function fails exactly on
the three early returns (load failure, deserialise failure, non-array top
level); every array input produces outputs. -/
def parseFModelJSON : Option Json → Option ParseOut
  | none => none
  | some (Json.arr entries) =>
    let phase1 := (findBPGC entries).map processBPGC
    let parent := (phase1.map (·.1)).getD ""
    let fns := (phase1.map (·.2.1)).getD []
    let acc := (phase1.map (·.2.2)).getD ⟨[], [], [], []⟩
    let m := buildReturnTypeMap entries
    some
      { functionNames := fns,
        componentNames := acc.comps,
        componentClasses := acc.compClasses,
        variableNames := acc.vars,
        variableTypes := acc.varTypes,
        functionReturnTypes := returnTypesFor fns m,
        parentClassPath := parent }
  | some _ => none

/-- The success output for a dump with no class-definition record. -/
def emptyParseOut : ParseOut := ⟨[], [], [], [], [], [], ""⟩

/-! ## Specification-side definitions and concrete fixtures -/

/-- Spec §4.3 step 5, stated as the spec words it: a qualifying return/out
parameter has flags containing `ReturnParm`, or `OutParm` without
`ReferenceParm`. (The code additionally tests `Parm`, which is subsumed.) -/
def specQualFlags (fl : String) : Bool :=
  containsCI fl "ReturnParm" || (containsCI fl "OutParm" && !containsCI fl "ReferenceParm")

/-- A property record qualifying as the return value, spec-side. -/
def specQualProp (p : Json) : Bool :=
  match p.asObj? with
  | some f => specQualFlags ((getStrField f "PropertyFlags").getD "")
  | none => false

/-- The encoding built for a property record (object entries only). -/
def rtiOfProp (p : Json) : String := buildRTI (p.asObj?.getD [])

/-- Every primary kind tag recognised by the pin builder, in dispatch order. -/
def recognizedKinds : List String :=
  ["BoolProperty", "IntProperty", "FloatProperty", "DoubleProperty", "ByteProperty",
   "StrProperty", "NameProperty", "TextProperty", "Int64Property", "EnumProperty",
   "StructProperty", "SoftObjectProperty", "SoftClassProperty", "WeakObjectProperty",
   "InterfaceProperty", "DelegateProperty", "MulticastDelegateProperty",
   "MulticastInlineDelegateProperty", "ClassProperty", "ObjectProperty",
   "ArrayProperty", "MapProperty"]

/-- The `Kind|Name|Path` encoding shape produced by the correlation pass for
named object/class/struct returns. -/
def enc3 (pt cn cp : String) : String := pt ++ "|" ++ cn ++ "|" ++ cp

/-- A class-definition record with no `Super` field and a native
`SuperStruct` reference. -/
def bpgcSuperStructRec (base : String) : Json :=
  Json.obj [("Type", Json.str "BlueprintGeneratedClass"),
    ("SuperStruct", Json.obj [("ObjectName", Json.str (classTag ++ (base ++ qStr)))])]

/-- A class-definition record carrying both an explicit `Super.ObjectPath`
and a native `SuperStruct` reference. -/
def bpgcSuperRec (p base : String) : Json :=
  Json.obj [("Type", Json.str "BlueprintGeneratedClass"),
    ("Super", Json.obj [("ObjectPath", Json.str p)]),
    ("SuperStruct", Json.obj [("ObjectName", Json.str (classTag ++ (base ++ qStr)))])]

/-- An `ObjectProperty` component property record. -/
def compProp (n c : String) : Json :=
  Json.obj [("Type", Json.str "ObjectProperty"), ("Name", Json.str n),
    ("PropertyClass", Json.obj [("ObjectName", Json.str (classTag ++ (c ++ qStr)))])]

/-- An `IntProperty` variable property record. -/
def intProp (n : String) : Json :=
  Json.obj [("Type", Json.str "IntProperty"), ("Name", Json.str n)]

/-- A dump whose class record owns two components sharing one class and a
twice-listed variable name. -/
def dumpC10 : Json :=
  Json.arr [Json.obj [("Type", Json.str "BlueprintGeneratedClass"),
    ("ChildProperties", Json.arr
      [compProp "MeshA" "StaticMeshComponent", compProp "MeshB" "StaticMeshComponent",
       intProp "HP", intProp "HP"])]]

/-- A return-parameter record of type `TMap<int32, PalBullet*>`: primitive
key (empty key-class slot) and object value with a named class. -/
def mapRetProp : Json :=
  Json.obj [("Type", Json.str "MapProperty"), ("Name", Json.str "ReturnValue"),
    ("PropertyFlags", Json.str "Parm, OutParm, ReturnParm"),
    ("KeyProp", Json.obj [("Type", Json.str "IntProperty")]),
    ("ValueProp", Json.obj [("Type", Json.str "ObjectProperty"),
      ("PropertyClass", Json.obj [("ObjectName", Json.str (classTag ++ ("PalBullet" ++ qStr)))])])]

/-! ## Helper lemmas -/

theorem lowerData_append (a b : String) : lowerData (a ++ b) = lowerData a ++ lowerData b := by
  simp [lowerData, String.data_append]

theorem mk_data (s : String) : String.mk s.data = s := rfl

theorem strEqCI_rfl (s : String) : strEqCI s s = true := by simp [strEqCI]

theorem strEqCI_congr {a b : String} (h : strEqCI a b = true) (c : String) :
    strEqCI a c = strEqCI b c := by
  unfold strEqCI at *
  rw [show lowerData a = lowerData b from by simpa using h]

theorem startsWithCI_append_self (pat s : String) : startsWithCI (pat ++ s) pat = true := by
  unfold startsWithCI
  rw [lowerData_append, List.isPrefixOf_iff_prefix]
  exact List.prefix_append _ _

theorem endsWithCI_append_self (s pat : String) : endsWithCI (s ++ pat) pat = true := by
  unfold endsWithCI
  rw [lowerData_append, List.isSuffixOf_iff_suffix]
  exact List.suffix_append _ _

theorem strDrop_append (a b : String) : strDrop (a ++ b) a.data.length = b := by
  unfold strDrop
  rw [String.data_append, List.drop_left, mk_data]

theorem strDropRight_append (a b : String) : strDropRight (a ++ b) b.data.length = a := by
  unfold strDropRight
  rw [String.data_append, List.length_append, Nat.add_sub_cancel, List.take_left, mk_data]

theorem removeFromEnd_append (s pat : String) : removeFromEnd (s ++ pat) pat = s := by
  unfold removeFromEnd
  rw [endsWithCI_append_self, if_pos rfl, strDropRight_append]

theorem hasSubstr_of_prefixed (b : List Char) :
    ∀ (a l : List Char), (a ++ b).isPrefixOf l = true → hasSubstr b l = true := by
  intro a
  induction a with
  | nil =>
    intro l h
    cases l with
    | nil => simpa [hasSubstr] using h
    | cons c t => simp only [hasSubstr]; rw [List.nil_append] at h; simp [h]
  | cons x a ih =>
    intro l h
    cases l with
    | nil => simp [List.isPrefixOf] at h
    | cons c t =>
      simp only [List.cons_append, List.isPrefixOf, Bool.and_eq_true] at h
      simp only [hasSubstr, Bool.or_eq_true]
      exact Or.inr (ih t h.2)

theorem hasSubstr_suffix (a b : List Char) :
    ∀ l, hasSubstr (a ++ b) l = true → hasSubstr b l = true := by
  intro l
  induction l with
  | nil =>
    intro h
    simp only [hasSubstr] at h ⊢
    rcases List.append_eq_nil.mp (by simpa [ List.isPrefixOf_iff_prefix] using h) with ⟨_, hb⟩
    simp [hb, List.isPrefixOf]
  | cons c t ih =>
    intro h
    simp only [hasSubstr, Bool.or_eq_true] at h
    rcases h with h | h
    · exact hasSubstr_of_prefixed b a _ h
    · simp only [hasSubstr, Bool.or_eq_true]
      exact Or.inr (ih h)

theorem containsCI_parm_of_returnparm (s : String)
    (h : containsCI s "ReturnParm" = true) : containsCI s "Parm" = true := by
  unfold containsCI at *
  rw [show lowerData "ReturnParm" = "return".data ++ lowerData "Parm" from by decide] at h
  exact hasSubstr_suffix _ _ _ h

theorem containsCI_parm_of_outparm (s : String)
    (h : containsCI s "OutParm" = true) : containsCI s "Parm" = true := by
  unfold containsCI at *
  rw [show lowerData "OutParm" = "out".data ++ lowerData "Parm" from by decide] at h
  exact hasSubstr_suffix _ _ _ h

theorem qualifiesFlags_eq_spec (fl : String) : qualifiesFlags fl = specQualFlags fl := by
  unfold qualifiesFlags specQualFlags
  cases hr : containsCI fl "ReturnParm" with
  | true => simp [hr, containsCI_parm_of_returnparm fl hr]
  | false =>
    cases ho : containsCI fl "OutParm" with
    | true => simp [hr, ho, containsCI_parm_of_outparm fl ho]
    | false => simp [hr, ho]

theorem splitFirstCh_append_of_none (ch : Char) :
    ∀ (a b : List Char), splitFirstCh ch a = none →
      splitFirstCh ch (a ++ ch :: b) = some (a, b) := by
  intro a
  induction a with
  | nil => intro b _; simp [splitFirstCh]
  | cons c t ih =>
    intro b h
    by_cases hc : c = ch
    · simp [splitFirstCh, hc] at h
    · simp only [splitFirstCh, if_neg hc] at h ⊢
      cases hr : splitFirstCh ch t with
      | some p => rw [hr] at h; simp at h
      | none => simp [List.cons_append, splitFirstCh, if_neg hc, ih b hr]

/-! ## Claim C2 — return-value heuristic -/

/-- C2: with no declared return information (flag unset, empty encoding) a
return value is inferred exactly when the name starts — case-insensitively,
as `FString::StartsWith` compares — with one of the fixed prefixes
`Get`, `Is`, `Can`, `Has`, `Should`, `Calc`, `Gey`; `GetHealth` infers a
return, `SetHealth` does not; and the explicit `VOID` token forces
has-return to `false` for every name and incoming flag. -/
theorem claim_C2_return_heuristic :
    (∀ name, effectiveHasReturn name false "" =
      (startsWithCI name "Get" || startsWithCI name "Is" || startsWithCI name "Can" ||
       startsWithCI name "Has" || startsWithCI name "Should" || startsWithCI name "Calc" ||
       startsWithCI name "Gey"))
    ∧ effectiveHasReturn "GetHealth" false "" = true
    ∧ effectiveHasReturn "SetHealth" false "" = false
    ∧ (∀ name b, effectiveHasReturn name b "VOID" = false) := by
  refine ⟨fun name => ?_, by decide, by decide, fun name b => ?_⟩
  · have h1 : strEqCI "" "VOID" = false := by decide
    simp only [effectiveHasReturn, h1, if_false, Bool.false_eq_true]
    simp [inferReturnFromName]
  · have h2 : strEqCI "VOID" "VOID" = true := by decide
    simp [effectiveHasReturn, h2]

/-! ## Claim C3 — return-type correlation -/

theorem scanProps_eq_find (props : List Json) :
    scanProps props = (props.find? specQualProp).map rtiOfProp := by
  induction props with
  | nil => simp [scanProps, List.find?]
  | cons p rest ih =>
    cases hp : p.asObj? with
    | none =>
      have hq : specQualProp p = false := by simp [specQualProp, hp]
      simp [scanProps, hp, List.find?, hq, ih]
    | some f =>
      have hq : specQualProp p = specQualFlags ((getStrField f "PropertyFlags").getD "") := by
        simp [specQualProp, hp]
      rw [← qualifiesFlags_eq_spec] at hq
      cases hqf : qualifiesFlags ((getStrField f "PropertyFlags").getD "") with
      | true =>
        simp [scanProps, hp, hqf, List.find?, hq, rtiOfProp]
      | false =>
        simp [scanProps, hp, hqf, List.find?, hq, ih]

/-- C3: the correlation pass selects as the return value the first property
record whose flags contain `ReturnParm`, or `OutParm` without `ReferenceParm`
(the code's extra `Parm` test is subsumed by either); and a `Function` record
with no qualifying property is mapped to the explicit `VOID` marker, never to
the empty no-information string. -/
theorem claim_C3_return_correlation :
    (∀ props : List Json, scanProps props = (props.find? specQualProp).map rtiOfProp)
    ∧ (∀ flags, qualifiesFlags flags = specQualFlags flags)
    ∧ (∀ (fields : List (String × Json)) (props : List Json),
        getArrField fields "ChildProperties" = some props →
        props.find? specQualProp = none →
        functionEntryReturnType fields = "VOID") := by
  refine ⟨scanProps_eq_find, qualifiesFlags_eq_spec, fun fields props h1 h2 => ?_⟩
  have hs : scanProps props = none := by rw [scanProps_eq_find, h2]; rfl
  simp [functionEntryReturnType, h1, hs]

theorem claim_C3_witness :
    functionEntryReturnType [("ChildProperties", Json.arr [])] = "VOID" ∧
    qualifiesFlags "RequiredAPI, Parm, OutParm, ZeroConstructor, ReturnParm" = true :=
  ⟨claim_C3_return_correlation.2.2 [("ChildProperties", Json.arr [])] [] rfl rfl,
   (claim_C3_return_correlation.2.1 "RequiredAPI, Parm, OutParm, ZeroConstructor, ReturnParm").trans
     (by decide)⟩

/-! ## Claim C1 — map encoding round-trip -/

/-- C1 (code bug): the correlation pass encodes `TMap<int32, PalBullet*>` as
`MapProperty|IntProperty|ObjectProperty||PalBullet`, writing an explicitly
empty key-class slot so that positions are preserved; but the pin builder
re-splits the string with empty fields culled, so the value class
`PalBullet` is decoded into the key-class role and the value-class role
stays empty — the value side of the pin degrades to the generic object
instead of the named class. -/
theorem claim_C1_map_role_shift :
    scanProps [mapRetProp] = some "MapProperty|IntProperty|ObjectProperty||PalBullet"
    ∧ (decodeRoles "MapProperty|IntProperty|ObjectProperty||PalBullet").mapKeyType = "IntProperty"
    ∧ (decodeRoles "MapProperty|IntProperty|ObjectProperty||PalBullet").mapValueType
        = "ObjectProperty"
    ∧ (decodeRoles "MapProperty|IntProperty|ObjectProperty||PalBullet").mapKeyClass = "PalBullet"
    ∧ (decodeRoles "MapProperty|IntProperty|ObjectProperty||PalBullet").mapValueClass = ""
    ∧ (decodePin envNone "MapProperty|IntProperty|ObjectProperty||PalBullet").subCategoryObject
        = some ObjRef.genericObject := by
  decide

/-! ## Claim C10 — parallel output arrays -/

/-- C10 (code bug): on a dump with two component properties sharing one class
and one variable name listed twice, `ParseFModelJSON` emits 2 component names
against 1 component class (`AddUnique` culls the repeated class) and 1
variable name against 2 variable types (`AddUnique` culls the repeated name
while types use plain `Add`) — the index-wise correspondence the callers
require is broken. -/
theorem claim_C10_parallel_arrays :
    (parseFModelJSON (some dumpC10)).map
        (fun o => (o.componentNames.length, o.componentClasses.length,
                   o.variableNames.length, o.variableTypes.length))
      = some (2, 1, 1, 2)
    ∧ (parseFModelJSON (some dumpC10)).map (fun o => o.functionReturnTypes.length)
      = (parseFModelJSON (some dumpC10)).map (fun o => o.functionNames.length) := by
  decide

/-! ## Claim C5 — duplicate filtering (counterexample and refined statement) -/

/-- C5 counterexample: against own function `Fire` and inherited `TakeDamage`,
the batch `[FIRE, ExecuteUbergraph_X, TakeDamage, Reload]` creates only
`Reload`: `FIRE` is dropped although it matches no name case-sensitively
(`FName` comparison ignores case), and `ExecuteUbergraph_X` is dropped with
no collision at all — refuting "dropped exactly when the name matches
case-sensitively an own or inherited function". -/
theorem claim_C5_counterexample :
    (addMultipleFunctionStubsToBlueprint envNone
        ⟨[⟨"Fire", false, none⟩], ["TakeDamage"]⟩
        ["FIRE", "ExecuteUbergraph_X", "TakeDamage", "Reload"] []).1 = 1
    ∧ (addMultipleFunctionStubsToBlueprint envNone
        ⟨[⟨"Fire", false, none⟩], ["TakeDamage"]⟩
        ["FIRE", "ExecuteUbergraph_X", "TakeDamage", "Reload"] []).2.functionGraphs.map
          FuncGraph.name
      = ["Fire", "Reload"] := by
  decide

/-! ## Claim C9 — placeholder substitution (counterexample) -/

/-- C9 counterexample: an unresolvable struct return keeps the struct pin
category but receives *no* placeholder sub-category object (the field stays
unset), unlike the object and class cases — refuting "a generic placeholder
of the same structural kind is substituted" for struct references. -/
theorem claim_C9_counterexample :
    (decodePin envNone "StructProperty|F_Missing").subCategoryObject = none
    ∧ (decodePin envNone "StructProperty|F_Missing").category = PC_Struct := by
  decide

/-! ## Claim C6 — parse success conditions -/

theorem findBPGC_eq_none : ∀ l : List Json, (∀ e ∈ l, isBPGC e = false) → findBPGC l = none := by
  intro l h
  induction l with
  | nil => rfl
  | cons e t ih =>
    have he : isBPGC e = false := h e (List.mem_cons_self e t)
    have ht := ih (fun x hx => h x (List.mem_cons_of_mem e hx))
    cases ha : e.asObj? with
    | none => simp [findBPGC, ha, ht]
    | some f =>
      have : strEqCI ((getStrField f "Type").getD "") "BlueprintGeneratedClass" = false := by
        simpa [isBPGC, ha] using he
      simp [findBPGC, ha, this, ht]

/-- C6: the dump parse fails exactly when the input could not be read or
deserialised (`none`) or the top-level JSON is not an array; every array
input succeeds, and an array with no `BlueprintGeneratedClass` record yields
the empty-but-valid output with the default empty parent. -/
theorem claim_C6_parse_totality :
    (∀ oj : Option Json, (parseFModelJSON oj).isSome = true ↔ ∃ l, oj = some (Json.arr l))
    ∧ (∀ l : List Json, (∀ e ∈ l, isBPGC e = false) →
        parseFModelJSON (some (Json.arr l)) = some emptyParseOut) := by
  constructor
  · intro oj
    match oj with
    | none => simp [parseFModelJSON]
    | some (Json.arr l) => simp [parseFModelJSON]
    | some (Json.str s) => simp [parseFModelJSON]
    | some (Json.num n) => simp [parseFModelJSON]
    | some (Json.jbool b) => simp [parseFModelJSON]
    | some Json.null => simp [parseFModelJSON]
    | some (Json.obj f) => simp [parseFModelJSON]
  · intro l h
    simp [parseFModelJSON, findBPGC_eq_none l h, returnTypesFor, emptyParseOut]

theorem claim_C6_witness :
    parseFModelJSON (some (Json.arr [Json.str "NoClassHere"])) = some emptyParseOut :=
  claim_C6_parse_totality.2 [Json.str "NoClassHere"] (by intro e he; simp at he; simp [he, isBPGC, Json.asObj?])

/-! ## Claim C7 — parent resolution precedence -/

/-- C7: a class record with no `Super` field whose `SuperStruct.ObjectName`
has the shape `Class'Base'` resolves the parent as the `CPP:`-tagged native
name `Base`; when an explicit `Super.ObjectPath` is present it wins and is
used verbatim as the asset-path parent. -/
theorem claim_C7_parent_resolution (base p : String) :
    (parseFModelJSON (some (Json.arr [bpgcSuperStructRec base]))).map ParseOut.parentClassPath
      = some ("CPP:" ++ base)
    ∧ (parseFModelJSON (some (Json.arr [bpgcSuperRec p base]))).map ParseOut.parentClassPath
      = some p := by
  have h6 : classTag.data.length = 6 := by decide
  have hsw := startsWithCI_append_self classTag (base ++ qStr)
  have hdrop : strDrop (classTag ++ (base ++ qStr)) 6 = base ++ qStr := by
    rw [← h6]; exact strDrop_append classTag (base ++ qStr)
  have hrem := removeFromEnd_append base qStr
  have k1 : strEqCI "Type" "Type" = true := by decide
  have k2 : strEqCI "Type" "Super" = false := by decide
  have k3 : strEqCI "SuperStruct" "Super" = false := by decide
  have k4 : strEqCI "Type" "SuperStruct" = false := by decide
  have k5 : strEqCI "SuperStruct" "SuperStruct" = true := by decide
  have k6 : strEqCI "ObjectName" "ObjectName" = true := by decide
  have k7 : strEqCI "BlueprintGeneratedClass" "BlueprintGeneratedClass" = true := by decide
  have k8 : strEqCI "Type" "Children" = false := by decide
  have k9 : strEqCI "SuperStruct" "Children" = false := by decide
  have k10 : strEqCI "Type" "ChildProperties" = false := by decide
  have k11 : strEqCI "SuperStruct" "ChildProperties" = false := by decide
  have k12 : strEqCI "BlueprintGeneratedClass" "Function" = false := by decide
  have k13 : strEqCI "Super" "Super" = true := by decide
  have k14 : strEqCI "ObjectPath" "ObjectPath" = true := by decide
  have k15 : strEqCI "Super" "Children" = false := by decide
  have k16 : strEqCI "Super" "ChildProperties" = false := by decide
  constructor
  · simp [parseFModelJSON, findBPGC, bpgcSuperStructRec, Json.asObj?, processBPGC,
      extractParent, getObjField, getStrField, getArrField, getField, List.find?,
      buildReturnTypeMap, returnTypesFor, hsw, hdrop, hrem,
      k1, k2, k3, k4, k5, k6, k7, k8, k9, k10, k11, k12]
  · simp [parseFModelJSON, findBPGC, bpgcSuperRec, Json.asObj?, processBPGC,
      extractParent, getObjField, getStrField, getArrField, getField, List.find?,
      buildReturnTypeMap, returnTypesFor,
      k1, k2, k7, k8, k10, k12, k13, k14, k15, k16]

/-! ## Claims C4/C5 — batch creation, duplicate filtering, idempotence -/

theorem any_map_name (l : List FuncGraph) (n : String) :
    (l.map FuncGraph.name).any (fun y => strEqCI y n) = l.any (fun g => strEqCI g.name n) := by
  induction l with
  | nil => rfl
  | cons g t ih => simp [List.any_cons, ih]

theorem collides_eq (bp : Blueprint) (n : String) :
    ((bp.functionGraphs.map FuncGraph.name).any (fun y => strEqCI y n)
      || bp.parentFunctions.any (fun y => strEqCI y n)) = collidesBp bp n := by
  unfold collidesBp
  rw [any_map_name]

theorem addMulti_cons_junk (env : Env) (bp : Blueprint) (n : String) (ns rts : List String)
    (hj : junkName n = true) :
    addMultipleFunctionStubsToBlueprint env bp (n :: ns) rts
      = addMultipleFunctionStubsToBlueprint env bp ns rts.tail := by
  simp [addMultipleFunctionStubsToBlueprint, hj]

theorem addMulti_cons_coll (env : Env) (bp : Blueprint) (n : String) (ns rts : List String)
    (hj : junkName n = false) (hc : collidesBp bp n = true) :
    addMultipleFunctionStubsToBlueprint env bp (n :: ns) rts
      = addMultipleFunctionStubsToBlueprint env bp ns rts.tail := by
  simp [addMultipleFunctionStubsToBlueprint, hj, hc]

theorem addMulti_cons_new (env : Env) (bp : Blueprint) (n : String) (ns rts : List String)
    (hj : junkName n = false) (hc : collidesBp bp n = false) :
    addMultipleFunctionStubsToBlueprint env bp (n :: ns) rts
      = ((addMultipleFunctionStubsToBlueprint env
            (addFunctionStubToBlueprint env bp n (rts.headD "" != "") (rts.headD "")).2
            ns rts.tail).1
          + (if (addFunctionStubToBlueprint env bp n (rts.headD "" != "") (rts.headD "")).1
             then 1 else 0),
         (addMultipleFunctionStubsToBlueprint env
            (addFunctionStubToBlueprint env bp n (rts.headD "" != "") (rts.headD "")).2
            ns rts.tail).2) := by
  simp [addMultipleFunctionStubsToBlueprint, hj, hc]

theorem dupFilter_cons_skip (own inh : List String) (n : String) (ns : List String)
    (h : (junkName n || own.any (fun y => strEqCI y n) || inh.any (fun y => strEqCI y n)) = true) :
    dupFilterSpec own inh (n :: ns) = dupFilterSpec own inh ns := by
  simp [dupFilterSpec, h]

theorem dupFilter_cons_keep (own inh : List String) (n : String) (ns : List String)
    (h : (junkName n || own.any (fun y => strEqCI y n) || inh.any (fun y => strEqCI y n)) = false) :
    dupFilterSpec own inh (n :: ns) = n :: dupFilterSpec (own ++ [n]) inh ns := by
  simp only [dupFilterSpec, h, Bool.false_eq_true, if_false]

theorem addStub_of_valid (env : Env) (bp : Blueprint) (n : String) (b : Bool) (rt : String)
    (h : fnameIsNone n = false) :
    addFunctionStubToBlueprint env bp n b rt =
      (true, { bp with functionGraphs := bp.functionGraphs ++
        [{ name := n, hasReturn := effectiveHasReturn n b rt,
           returnPin := if effectiveHasReturn n b rt then some (decodePin env rt)
                        else none }] }) := by
  simp [addFunctionStubToBlueprint, h]

theorem addMulti_spec (env : Env) :
    ∀ (names : List String) (bp : Blueprint) (rts : List String),
      ((addMultipleFunctionStubsToBlueprint env bp names rts).2.functionGraphs.map FuncGraph.name
        = bp.functionGraphs.map FuncGraph.name
          ++ dupFilterSpec (bp.functionGraphs.map FuncGraph.name) bp.parentFunctions names)
      ∧ ((addMultipleFunctionStubsToBlueprint env bp names rts).1
        = (dupFilterSpec (bp.functionGraphs.map FuncGraph.name) bp.parentFunctions names).length)
      ∧ ((addMultipleFunctionStubsToBlueprint env bp names rts).2.parentFunctions
        = bp.parentFunctions) := by
  intro names
  induction names with
  | nil => intro bp rts; simp [addMultipleFunctionStubsToBlueprint, dupFilterSpec]
  | cons n ns ih =>
    intro bp rts
    cases hj : junkName n with
    | true =>
      have hskip : (junkName n || (bp.functionGraphs.map FuncGraph.name).any (fun y => strEqCI y n)
          || bp.parentFunctions.any (fun y => strEqCI y n)) = true := by simp [hj]
      rw [addMulti_cons_junk env bp n ns rts hj, dupFilter_cons_skip _ _ _ _ hskip]
      exact ih bp rts.tail
    | false =>
      cases hc : collidesBp bp n with
      | true =>
        have hskip : (junkName n || (bp.functionGraphs.map FuncGraph.name).any (fun y => strEqCI y n)
            || bp.parentFunctions.any (fun y => strEqCI y n)) = true := by
          rw [Bool.or_assoc, collides_eq, hj, hc]
          rfl
        rw [addMulti_cons_coll env bp n ns rts hj hc, dupFilter_cons_skip _ _ _ _ hskip]
        exact ih bp rts.tail
      | false =>
        have hkeep : (junkName n || (bp.functionGraphs.map FuncGraph.name).any (fun y => strEqCI y n)
            || bp.parentFunctions.any (fun y => strEqCI y n)) = false := by
          rw [Bool.or_assoc, collides_eq, hj, hc]
          rfl
        have hfn : fnameIsNone n = false := by
          have h0 : (fnameIsNone n || containsCI n "ExecuteUbergraph") = false := hj
          exact (Bool.or_eq_false_iff.mp h0).1
        rw [addMulti_cons_new env bp n ns rts hj hc,
          addStub_of_valid env bp n (rts.headD "" != "") (rts.headD "") hfn,
          dupFilter_cons_keep _ _ _ _ hkeep]
        obtain ⟨ih1, ih2, ih3⟩ :=
          ih { bp with
                functionGraphs := bp.functionGraphs ++
                  [{ name := n, hasReturn := effectiveHasReturn n (rts.headD "" != "") (rts.headD ""),
                     returnPin := if effectiveHasReturn n (rts.headD "" != "") (rts.headD "")
                       then some (decodePin env (rts.headD "")) else none }] }
            rts.tail
        refine ⟨?_, ?_, ?_⟩
        · show (addMultipleFunctionStubsToBlueprint env _ ns rts.tail).2.functionGraphs.map
            FuncGraph.name = _
          rw [ih1, List.append_cons]
          simp [List.map_append]
        · show (addMultipleFunctionStubsToBlueprint env _ ns rts.tail).1 + _ = _
          rw [ih2]
          simp [List.map_append]
        · show (addMultipleFunctionStubsToBlueprint env _ ns rts.tail).2.parentFunctions = _
          rw [ih3]

theorem dupFilterSpec_covers :
    ∀ (names own inherited : List String) (n : String), n ∈ names →
      junkName n = true
      ∨ (own ++ dupFilterSpec own inherited names).any (fun y => strEqCI y n) = true
      ∨ inherited.any (fun y => strEqCI y n) = true := by
  intro names
  induction names with
  | nil => intro own inherited n hn; cases hn
  | cons m ms ih =>
    intro own inherited n hn
    rcases List.mem_cons.mp hn with rfl | hmem
    · cases hj : junkName n with
      | true => exact Or.inl rfl
      | false =>
        cases ho : own.any (fun y => strEqCI y n) with
        | true =>
          refine Or.inr (Or.inl ?_)
          rw [List.any_append, ho, Bool.true_or]
        | false =>
          cases hi : inherited.any (fun y => strEqCI y n) with
          | true => exact Or.inr (Or.inr rfl)
          | false =>
            refine Or.inr (Or.inl ?_)
            rw [dupFilter_cons_keep own inherited n ms (by rw [hj, ho, hi]; rfl)]
            simp [List.any_append, strEqCI_rfl]
    · by_cases hcond : (junkName m || own.any (fun y => strEqCI y m)
          || inherited.any (fun y => strEqCI y m)) = true
      · rw [dupFilter_cons_skip own inherited m ms hcond]
        exact ih own inherited n hmem
      · have hcond' : (junkName m || own.any (fun y => strEqCI y m)
            || inherited.any (fun y => strEqCI y m)) = false := by
          simpa using hcond
        rw [dupFilter_cons_keep own inherited m ms hcond', List.append_cons]
        exact ih (own ++ [m]) inherited n hmem

theorem addMulti_all_skip (env : Env) :
    ∀ (names : List String) (bp : Blueprint) (rts : List String),
      (∀ n ∈ names, junkName n = true ∨ collidesBp bp n = true) →
      addMultipleFunctionStubsToBlueprint env bp names rts = (0, bp) := by
  intro names
  induction names with
  | nil => intro bp rts _; rfl
  | cons n ns ih =>
    intro bp rts h
    have ht : ∀ x ∈ ns, junkName x = true ∨ collidesBp bp x = true :=
      fun x hx => h x (List.mem_cons_of_mem n hx)
    cases hj : junkName n with
    | true => rw [addMulti_cons_junk env bp n ns rts hj]; exact ih bp rts.tail ht
    | false =>
      have hc : collidesBp bp n = true := by
        rcases h n (List.mem_cons_self n ns) with hj' | hc'
        · rw [hj] at hj'; cases hj'
        · exact hc'
      rw [addMulti_cons_coll env bp n ns rts hj hc]
      exact ih bp rts.tail ht

/-- C5 (corrected): running the batch against a target asset drops a function
exactly when its name is `NAME_None`, contains `ExecuteUbergraph`, or matches
— case-insensitively and by name only — an own function graph (including
graphs created earlier in the same batch) or a function inherited from the
parent class; the surviving names are created in order, silently and without
error, and the returned count is the number created. -/
theorem claim_C5_filter_refinement (env : Env) (bp : Blueprint) (names rts : List String) :
    (addMultipleFunctionStubsToBlueprint env bp names rts).2.functionGraphs.map FuncGraph.name
      = bp.functionGraphs.map FuncGraph.name
        ++ dupFilterSpec (bp.functionGraphs.map FuncGraph.name) bp.parentFunctions names
    ∧ (addMultipleFunctionStubsToBlueprint env bp names rts).1
      = (dupFilterSpec (bp.functionGraphs.map FuncGraph.name) bp.parentFunctions names).length := by
  obtain ⟨h1, h2, _⟩ := addMulti_spec env names bp rts
  exact ⟨h1, h2⟩

/-- C4: running `AddMultipleFunctionStubsToBlueprint` a second time with the
same name/return-type lists against the asset produced by the first run adds
zero graphs and returns success count 0 — every function created by the
first run is now among the asset's own function graphs, and every function
skipped by the first run is skipped again for its original reason. -/
theorem claim_C4_idempotent (env : Env) (bp : Blueprint) (names rts : List String) :
    (addMultipleFunctionStubsToBlueprint env
        (addMultipleFunctionStubsToBlueprint env bp names rts).2 names rts).1 = 0
    ∧ (addMultipleFunctionStubsToBlueprint env
        (addMultipleFunctionStubsToBlueprint env bp names rts).2 names rts).2
      = (addMultipleFunctionStubsToBlueprint env bp names rts).2 := by
  obtain ⟨h1, _, h3⟩ := addMulti_spec env names bp rts
  have hall : ∀ n ∈ names,
      junkName n = true ∨ collidesBp (addMultipleFunctionStubsToBlueprint env bp names rts).2 n = true := by
    intro n hn
    rcases dupFilterSpec_covers names (bp.functionGraphs.map FuncGraph.name)
        bp.parentFunctions n hn with hj | ho | hi
    · exact Or.inl hj
    · refine Or.inr ?_
      rw [← collides_eq, h1, h3, ho, Bool.true_or]
    · refine Or.inr ?_
      rw [← collides_eq, h3, hi, Bool.or_true]
  have hskip := addMulti_all_skip env names
    (addMultipleFunctionStubsToBlueprint env bp names rts).2 rts hall
  rw [hskip]
  exact ⟨rfl, rfl⟩

/-! ## Claim C8 — decoding is total and never aborts stub creation -/

/-- C8: the pin decoder is total and never fails stub creation: a primary
kind tag outside the recognised set yields the wildcard pin, the empty
encoding yields the wildcard pin, a `MapProperty` encoding with fewer than
3 pipe-separated fields yields a wildcard-category pin rather than an error,
and `AddFunctionStubToBlueprint` succeeds for every valid name whatever the
encoding. -/
theorem claim_C8_decode_total :
    (∀ (env : Env) (rt : String),
      recognizedKinds.all (fun k => !strEqCI (parseRT rt).propType k) = true →
      decodePin env rt = wildcardPin)
    ∧ (∀ env : Env, decodePin env "" = wildcardPin)
    ∧ (∀ (env : Env) (rt : String),
        strEqCI (parseRT rt).propType "MapProperty" = true →
        (splitPipeRaw rt).length < 3 →
        (decodePin env rt).category = PC_Wildcard)
    ∧ (∀ (env : Env) (bp : Blueprint) (n : String) (b : Bool) (rt : String),
        fnameIsNone n = false →
        (addFunctionStubToBlueprint env bp n b rt).1 = true) := by
  refine ⟨fun env rt h => ?_, fun env => ?_, fun env rt hmap hlen => ?_,
    fun env bp n b rt h => ?_⟩
  · simp only [recognizedKinds, List.all_cons, List.all_nil, Bool.and_eq_true,
      Bool.not_eq_true', and_true] at h
    obtain ⟨h1, h2, h3, h4, h5, h6, h7, h8, h9, h10, h11, h12, h13, h14, h15, h16,
      h17, h18, h19, h20, h21, h22⟩ := h
    unfold decodePin decodePinCore
    by_cases hE : (parseRT rt).propType = ""
    · simp [hE]
    · simp [hE, h1, h2, h3, h4, h5, h6, h7, h8, h9, h10, h11, h12, h13, h14, h15,
        h16, h17, h18, h19, h20, h21, h22]
  · have hp : parseRT "" = { propType := "" } := by decide
    unfold decodePin
    rw [hp]
    rfl
  · have hcg := strEqCI_congr hmap
    have hne : ¬ (parseRT rt).propType = "" := by
      intro h0
      rw [h0] at hmap
      exact absurd hmap (by decide)
    have hB1 : strEqCI (parseRT rt).propType "BoolProperty" = false := (hcg _).trans (by decide)
    have hB2 : strEqCI (parseRT rt).propType "IntProperty" = false := (hcg _).trans (by decide)
    have hB3 : strEqCI (parseRT rt).propType "FloatProperty" = false := (hcg _).trans (by decide)
    have hB4 : strEqCI (parseRT rt).propType "DoubleProperty" = false := (hcg _).trans (by decide)
    have hB5 : strEqCI (parseRT rt).propType "ByteProperty" = false := (hcg _).trans (by decide)
    have hB6 : strEqCI (parseRT rt).propType "StrProperty" = false := (hcg _).trans (by decide)
    have hB7 : strEqCI (parseRT rt).propType "NameProperty" = false := (hcg _).trans (by decide)
    have hB8 : strEqCI (parseRT rt).propType "TextProperty" = false := (hcg _).trans (by decide)
    have hB9 : strEqCI (parseRT rt).propType "Int64Property" = false := (hcg _).trans (by decide)
    have hB10 : strEqCI (parseRT rt).propType "EnumProperty" = false := (hcg _).trans (by decide)
    have hB11 : strEqCI (parseRT rt).propType "StructProperty" = false := (hcg _).trans (by decide)
    have hB12 : strEqCI (parseRT rt).propType "SoftObjectProperty" = false := (hcg _).trans (by decide)
    have hB13 : strEqCI (parseRT rt).propType "SoftClassProperty" = false := (hcg _).trans (by decide)
    have hB14 : strEqCI (parseRT rt).propType "WeakObjectProperty" = false := (hcg _).trans (by decide)
    have hB15 : strEqCI (parseRT rt).propType "InterfaceProperty" = false := (hcg _).trans (by decide)
    have hB16 : strEqCI (parseRT rt).propType "DelegateProperty" = false := (hcg _).trans (by decide)
    have hB17 : strEqCI (parseRT rt).propType "MulticastDelegateProperty" = false :=
      (hcg _).trans (by decide)
    have hB18 : strEqCI (parseRT rt).propType "MulticastInlineDelegateProperty" = false :=
      (hcg _).trans (by decide)
    have hB19 : strEqCI (parseRT rt).propType "ClassProperty" = false := (hcg _).trans (by decide)
    have hB20 : strEqCI (parseRT rt).propType "ObjectProperty" = false := (hcg _).trans (by decide)
    have hB21 : strEqCI (parseRT rt).propType "ArrayProperty" = false := (hcg _).trans (by decide)
    have hlen' : ¬ (3 ≤ (cullSplitPipe rt).length) := by
      have hle := List.length_filter_le (fun x => x != "") (splitPipeRaw rt)
      unfold cullSplitPipe
      omega
    unfold decodePin decodePinCore
    simp [hne, hB1, hB2, hB3, hB4, hB5, hB6, hB7, hB8, hB9, hB10, hB11, hB12, hB13,
      hB14, hB15, hB16, hB17, hB18, hB19, hB20, hB21, hmap, mapPin, hlen']
  · rw [addStub_of_valid env bp n b rt h]

theorem claim_C8_witness :
    decodePin envNone "FooProperty|Bar" = wildcardPin
    ∧ (decodePin envNone "MapProperty|IntProperty").category = PC_Wildcard
    ∧ (addFunctionStubToBlueprint envNone ⟨[], []⟩ "Reload" false "").1 = true :=
  ⟨claim_C8_decode_total.1 envNone "FooProperty|Bar" (by decide),
   claim_C8_decode_total.2.2.1 envNone "MapProperty|IntProperty" (by decide) (by decide),
   claim_C8_decode_total.2.2.2 envNone ⟨[], []⟩ "Reload" false "" (by decide)⟩

/-! ## Claim C9 — resolution misses degrade to generic placeholders -/

theorem data_enc3 (pt cn cp : String) :
    (enc3 pt cn cp).data = pt.data ++ '|' :: (cn.data ++ '|' :: cp.data) := by
  have hq : "|".data = ['|'] := rfl
  simp [enc3, String.data_append, hq]

theorem parseRT_enc3 (pt cn cp : String) (hp : splitFirstCh '|' pt.data = none)
    (ha : strEqCI pt "ArrayProperty" = false) (hc : splitFirstCh '|' cn.data = none) :
    parseRT (enc3 pt cn cp) = { propType := pt, className := cn, classPath := cp } := by
  unfold parseRT
  rw [data_enc3 pt cn cp, splitFirstCh_append_of_none '|' pt.data _ hp]
  simp only [mk_data, ha, Bool.false_eq_true, if_false,
    splitFirstCh_append_of_none '|' cn.data cp.data hc]

theorem objectSearch_none (env : Env) (cn cp : String) (h : ∀ q, env.classAt q = false) :
    objectSearch env cn cp = none := by
  unfold objectSearch
  simp [h, List.find?]

theorem structSearch_none (env : Env) (cn cp : String) (h : ∀ q, env.structAt q = false) :
    structSearch env cn cp = none := by
  unfold structSearch
  simp [h, List.find?]

theorem decodePinCore_object (env : Env) (rt cn cp : String) :
    decodePinCore env rt ⟨"ObjectProperty", cn, cp, ""⟩ =
      { category := PC_Object,
        subCategoryObject :=
          if cn != "" then
            match objectSearch env cn cp with
            | some p => some (ObjRef.cls p)
            | none => some ObjRef.genericObject
          else none } := rfl

theorem decodePinCore_class (env : Env) (rt cn cp : String) :
    decodePinCore env rt ⟨"ClassProperty", cn, cp, ""⟩ =
      { category := PC_Class,
        subCategoryObject :=
          if cn != "" then
            match objectSearch env cn cp with
            | some p => some (ObjRef.cls p)
            | none => some ObjRef.genericClass
          else none } := rfl

theorem decodePinCore_struct (env : Env) (rt cn cp : String) :
    decodePinCore env rt ⟨"StructProperty", cn, cp, ""⟩ =
      { category := PC_Struct,
        subCategoryObject :=
          if cn != "" then (structSearch env cn cp).map ObjRef.scriptStruct else none } := rfl

/-- C9 (corrected): when a named return type resolves at no candidate path,
decoding still yields a valid pin and never raises: object references
degrade to the generic `UObject` placeholder and class references to the
generic `UClass` placeholder, while struct references keep the struct
category with *no* placeholder sub-category object (the slot stays unset). -/
theorem claim_C9_placeholder_fallback (env : Env) (cn cp : String)
    (hclass : ∀ q, env.classAt q = false) (hstruct : ∀ q, env.structAt q = false)
    (hcn : cn ≠ "") (hnp : splitFirstCh '|' cn.data = none) :
    decodePin env (enc3 "ObjectProperty" cn cp)
      = { category := PC_Object, subCategoryObject := some ObjRef.genericObject }
    ∧ decodePin env (enc3 "ClassProperty" cn cp)
      = { category := PC_Class, subCategoryObject := some ObjRef.genericClass }
    ∧ decodePin env (enc3 "StructProperty" cn cp)
      = { category := PC_Struct, subCategoryObject := none } := by
  refine ⟨?_, ?_, ?_⟩
  · unfold decodePin
    rw [parseRT_enc3 "ObjectProperty" cn cp (by decide) (by decide) hnp,
      decodePinCore_object, objectSearch_none env cn cp hclass]
    simp [hcn]
  · unfold decodePin
    rw [parseRT_enc3 "ClassProperty" cn cp (by decide) (by decide) hnp,
      decodePinCore_class, objectSearch_none env cn cp hclass]
    simp [hcn]
  · unfold decodePin
    rw [parseRT_enc3 "StructProperty" cn cp (by decide) (by decide) hnp,
      decodePinCore_struct, structSearch_none env cn cp hstruct]
    simp

theorem claim_C9_witness :
    decodePin envNone (enc3 "ObjectProperty" "PalBullet" "/Game/X/Bullet.0")
      = { category := PC_Object, subCategoryObject := some ObjRef.genericObject }
    ∧ decodePin envNone (enc3 "ClassProperty" "PalBullet" "/Game/X/Bullet.0")
      = { category := PC_Class, subCategoryObject := some ObjRef.genericClass }
    ∧ decodePin envNone (enc3 "StructProperty" "PalBullet" "/Game/X/Bullet.0")
      = { category := PC_Struct, subCategoryObject := none } :=
  claim_C9_placeholder_fallback envNone "PalBullet" "/Game/X/Bullet.0"
    (fun _ => rfl) (fun _ => rfl) (by decide) (by decide)
